import Mathlib

set_option autoImplicit false

namespace WorkerBridge

/-!
Shallow embedding of the worker-bridge isolation layer of the repository
(`src/security/worker-bridge/`): the descriptor serializer
(`serialization.ts`), the request correlator (`rpc.ts`), the worker-side
entry point (`worker-entry.ts`) and the host-side supervisor
(`main-host.ts`).

JavaScript runtime values that cross the bridge are modelled by the
inductive `JsValue`.  JS objects cannot contain duplicate keys, and the
values built by this program are acyclic, so an inductive association
list is a faithful model of the object fragment the bridge manipulates.
Numbers are modelled by `Int` (none of the verified properties depend on
floating-point behaviour).  A function value is represented by an opaque
identifier; the Lean meaning of handler identifiers is carried separately
by the worker state's `funcImpl` environment.
-/

mutual
/-- Model of a JavaScript runtime value (the values the bridge code reads
from tool objects and posts across the worker boundary). -/
inductive JsValue : Type where
  | undefined : JsValue
  | jsNull : JsValue
  | bool (b : Bool) : JsValue
  | num (n : Int) : JsValue
  | str (s : String) : JsValue
  | func (id : Nat) : JsValue
  | arr (elems : JsArr) : JsValue
  | obj (fields : JsObj) : JsValue

/-- A JS array literal's element list. -/
inductive JsArr : Type where
  | nil : JsArr
  | cons (hd : JsValue) (tl : JsArr) : JsArr

/-- A JS object's own enumerable fields, in insertion order. -/
inductive JsObj : Type where
  | nil : JsObj
  | cons (key : String) (val : JsValue) (tl : JsObj) : JsObj
end

mutual
/-- Model of a pure JSON value: what `JSON.parse` can return. -/
inductive Json : Type where
  | null : Json
  | bool (b : Bool) : Json
  | num (n : Int) : Json
  | str (s : String) : Json
  | arr (elems : JsonArr) : Json
  | obj (fields : JsonObj) : Json

/-- Element list of a JSON array. -/
inductive JsonArr : Type where
  | nil : JsonArr
  | cons (hd : Json) (tl : JsonArr) : JsonArr

/-- Field list of a JSON object. -/
inductive JsonObj : Type where
  | nil : JsonObj
  | cons (key : String) (val : Json) (tl : JsonObj) : JsonObj
end

deriving instance DecidableEq for JsValue
deriving instance DecidableEq for Json

/-- Property read `o[k]` on a JS object's field list: first binding wins
(a real JS object holds each key at most once); absent keys read as
`undefined`. -/
def objGet (k : String) : JsObj → JsValue
  | .nil => .undefined
  | .cons key v tl => if key = k then v else objGet k tl

/-- Property read `v[k]` on an arbitrary JS value: `undefined` unless `v`
is an object that owns the key. -/
def getField (v : JsValue) (k : String) : JsValue :=
  match v with
  | .obj fs => objGet k fs
  | _ => .undefined

/-- JS truthiness of a value (`Boolean(v)`). -/
def truthy : JsValue → Bool
  | .undefined => false
  | .jsNull => false
  | .bool b => b
  | .num n => n != 0
  | .str s => s ≠ ""
  | .func _ => true
  | .arr _ => true
  | .obj _ => true

/-- Whether `typeof v === "object"` holds (true for objects, arrays and
`null`; false for primitives and functions). -/
def typeofIsObject : JsValue → Bool
  | .jsNull => true
  | .arr _ => true
  | .obj _ => true
  | _ => false

mutual
/-- JSON.stringify on a JS value, returned as the parsed JSON tree:
`undefined` and function values have no JSON representation (`none`);
inside arrays they serialize as `null`, inside objects their field is
omitted.  The values this program stringifies are acyclic by
construction, so the cyclic-reference throw of `JSON.stringify` cannot
occur. -/
def stringifyVal : JsValue → Option Json
  | .undefined => none
  | .func _ => none
  | .jsNull => some .null
  | .bool b => some (.bool b)
  | .num n => some (.num n)
  | .str s => some (.str s)
  | .arr es => some (.arr (stringifyArrElems es))
  | .obj fs => some (.obj (stringifyObjFields fs))

/-- Array elements under `JSON.stringify`: unrepresentable elements
become `null`. -/
def stringifyArrElems : JsArr → JsonArr
  | .nil => .nil
  | .cons e es => .cons ((stringifyVal e).getD .null) (stringifyArrElems es)

/-- Object fields under `JSON.stringify`: unrepresentable values drop
their field. -/
def stringifyObjFields : JsObj → JsonObj
  | .nil => .nil
  | .cons k v fs =>
    match stringifyVal v with
    | some j => .cons k j (stringifyObjFields fs)
    | none => stringifyObjFields fs
end

mutual
/-- The JS value produced by `JSON.parse` of a JSON tree. -/
def jsonToJs : Json → JsValue
  | .null => .jsNull
  | .bool b => .bool b
  | .num n => .num n
  | .str s => .str s
  | .arr js => .arr (jsonArrToJs js)
  | .obj fjs => .obj (jsonObjToJs fjs)

/-- Parse a JSON array's elements. -/
def jsonArrToJs : JsonArr → JsArr
  | .nil => .nil
  | .cons j js => .cons (jsonToJs j) (jsonArrToJs js)

/-- Parse a JSON object's fields. -/
def jsonObjToJs : JsonObj → JsObj
  | .nil => .nil
  | .cons k j fjs => .cons k (jsonToJs j) (jsonObjToJs fjs)
end

/-- The JSON round trip `JSON.parse(JSON.stringify(v))`, as used by
`serializeToolDescriptor` to deep-clone `parameters` and by
`validateRoundTrip` to check descriptors (`serialization.ts`). -/
def jsonClone (v : JsValue) : Option JsValue :=
  (stringifyVal v).map jsonToJs

mutual
/-- A JS value is pure JSON data when it contains no `undefined` and no
function value anywhere. -/
def isPure : JsValue → Bool
  | .undefined => false
  | .func _ => false
  | .jsNull => true
  | .bool _ => true
  | .num _ => true
  | .str _ => true
  | .arr es => isPureArr es
  | .obj fs => isPureObj fs

/-- Purity of every element of an array. -/
def isPureArr : JsArr → Bool
  | .nil => true
  | .cons e es => isPure e && isPureArr es

/-- Purity of every field value of an object. -/
def isPureObj : JsObj → Bool
  | .nil => true
  | .cons _ v fs => isPure v && isPureObj fs
end

mutual
/-- Parsed JSON is always pure JS data. -/
theorem isPure_jsonToJs (j : Json) : isPure (jsonToJs j) = true := by
  cases j with
  | null => rfl
  | bool b => rfl
  | num n => rfl
  | str s => rfl
  | arr js => simpa [jsonToJs, isPure] using isPureArr_jsonArrToJs js
  | obj fjs => simpa [jsonToJs, isPure] using isPureObj_jsonObjToJs fjs

/-- Parsed JSON arrays are pure. -/
theorem isPureArr_jsonArrToJs (js : JsonArr) : isPureArr (jsonArrToJs js) = true := by
  cases js with
  | nil => rfl
  | cons j tl =>
    simp [jsonArrToJs, isPureArr, isPure_jsonToJs j, isPureArr_jsonArrToJs tl]

/-- Parsed JSON objects are pure. -/
theorem isPureObj_jsonObjToJs (fjs : JsonObj) : isPureObj (jsonObjToJs fjs) = true := by
  cases fjs with
  | nil => rfl
  | cons k j tl =>
    simp [jsonObjToJs, isPureObj, isPure_jsonToJs j, isPureObj_jsonObjToJs tl]
end

mutual
/-- Stringify-then-parse is the identity on pure JS values. -/
theorem jsonClone_pure (v : JsValue) (h : isPure v = true) :
    jsonClone v = some v := by
  cases v with
  | undefined => simp [isPure] at h
  | func id => simp [isPure] at h
  | jsNull => rfl
  | bool b => rfl
  | num n => rfl
  | str s => rfl
  | arr es =>
    have := jsonArr_round es (by simpa [isPure] using h)
    simp [jsonClone, stringifyVal, jsonToJs, this]
  | obj fs =>
    have := jsonObj_round fs (by simpa [isPure] using h)
    simp [jsonClone, stringifyVal, jsonToJs, this]

/-- Round trip identity for pure arrays. -/
theorem jsonArr_round (es : JsArr) (h : isPureArr es = true) :
    jsonArrToJs (stringifyArrElems es) = es := by
  cases es with
  | nil => rfl
  | cons e tl =>
    have he : isPure e = true := by
      simp [isPureArr] at h; exact h.1
    have htl : isPureArr tl = true := by
      simp [isPureArr] at h; exact h.2
    have hc := jsonClone_pure e he
    simp only [jsonClone] at hc
    cases hj : stringifyVal e with
    | none => simp [hj] at hc
    | some j =>
      simp [hj] at hc
      simp [stringifyArrElems, jsonArrToJs, hj, hc, jsonArr_round tl htl]

/-- Round trip identity for pure objects. -/
theorem jsonObj_round (fs : JsObj) (h : isPureObj fs = true) :
    jsonObjToJs (stringifyObjFields fs) = fs := by
  cases fs with
  | nil => rfl
  | cons k v tl =>
    have hv : isPure v = true := by
      simp [isPureObj] at h; exact h.1
    have htl : isPureObj tl = true := by
      simp [isPureObj] at h; exact h.2
    have hc := jsonClone_pure v hv
    simp only [jsonClone] at hc
    cases hj : stringifyVal v with
    | none => simp [hj] at hc
    | some j =>
      simp [hj] at hc
      simp [stringifyObjFields, jsonObjToJs, hj, hc, jsonObj_round tl htl]
end

mutual
/-- JS string coercion `String(v)`.  For a function value the real runtime
yields the function's source text, which is never the empty string; it is
modelled by a fixed non-empty placeholder.  Arrays render as their
elements joined by commas, with `null`﻿/`undefined` elements rendering
empty, per `Array.prototype.toString`. -/
def jsToString : JsValue → String
  | .undefined => "undefined"
  | .jsNull => "null"
  | .bool true => "true"
  | .bool false => "false"
  | .num n => toString n
  | .str s => s
  | .func _ => "function () \x7b\x7d"
  | .arr es => jsArrToString es
  | .obj _ => "[object Object]"

/-- Comma join of array elements under `String()`. -/
def jsArrToString : JsArr → String
  | .nil => ""
  | .cons e tl =>
    let head := match e with
      | .undefined => ""
      | .jsNull => ""
      | _ => jsToString e
    match tl with
    | .nil => head
    | .cons _ _ => head ++ "," ++ jsArrToString tl
end

/-- The `name` computed by `serializeToolDescriptor` (`serialization.ts`
line 14): `String(tool.name ?? "")` — nullish `name` coalesces to the
empty string, anything else is coerced by `String()`. -/
def coerceName (tool : JsValue) : String :=
  match getField tool "name" with
  | .undefined => ""
  | .jsNull => ""
  | v => jsToString v

/-- The conditional `label` field spread of `serializeToolDescriptor`:
included exactly when `typeof tool.label === "string"`. -/
def optLabelField (tool : JsValue) (rest : JsObj) : JsObj :=
  match getField tool "label" with
  | .str s => .cons "label" (.str s) rest
  | _ => rest

/-- The conditional `description` field spread of
`serializeToolDescriptor`: included exactly when
`typeof tool.description === "string"`. -/
def optDescriptionField (tool : JsValue) (rest : JsObj) : JsObj :=
  match getField tool "description" with
  | .str s => .cons "description" (.str s) rest
  | _ => rest

/-- The conditional `parameters` field spread of
`serializeToolDescriptor`: included when `tool.parameters` is truthy and
`typeof tool.parameters === "object"`, deep-cloned through
`JSON.parse(JSON.stringify(...))`.  The `none` branch of the clone is
unreachable under the guard (objects and arrays always stringify). -/
def optParametersField (tool : JsValue) (rest : JsObj) : JsObj :=
  if truthy (getField tool "parameters") && typeofIsObject (getField tool "parameters") then
    match jsonClone (getField tool "parameters") with
    | some pv => .cons "parameters" pv rest
    | none => rest
  else rest

/-- Embedding of `serializeToolDescriptor` (`serialization.ts` lines
10-21): an object literal with `name` first, then the three conditional
spreads, in source order. -/
def serializeToolDescriptor (tool : JsValue) : JsValue :=
  .obj (.cons "name" (.str (coerceName tool))
    (optLabelField tool (optDescriptionField tool (optParametersField tool .nil))))

/-- Embedding of `isValidToolDescriptor` (`serialization.ts` lines
26-32): a truthy object whose `name` field is a non-empty string. -/
def isValidToolDescriptor (desc : JsValue) : Bool :=
  if !(truthy desc) || !(typeofIsObject desc) then false
  else
    match getField desc "name" with
    | .str s => s.length > 0
    | _ => false

/-- Read of a string-typed descriptor field such as `descriptor.name`
(the serializer always writes a string there; other shapes read as the
empty string only for totality). -/
def descStrField (d : JsValue) (k : String) : String :=
  match getField d k with
  | .str s => s
  | _ => ""

/-- JS property assignment `o[k] = v` on a field list: overwrites the
single existing binding, or appends when the key is absent. -/
def objSet (fs : JsObj) (k : String) (v : JsValue) : JsObj :=
  match fs with
  | .nil => .cons k v .nil
  | .cons key old tl => if key = k then .cons key v tl else .cons key old (objSet tl k v)

/-- Property assignment on a JS value (no-op on non-objects). -/
def setField (d : JsValue) (k : String) (v : JsValue) : JsValue :=
  match d with
  | .obj fs => .obj (objSet fs k v)
  | _ => d

/-- Own-key list of an object's field list. -/
def objKeys : JsObj → List String
  | .nil => []
  | .cons k _ tl => k :: objKeys tl

/-- Own-key list of a JS value (empty for non-objects). -/
def fieldKeys : JsValue → List String
  | .obj fs => objKeys fs
  | _ => []

theorem pure_optLabelField (tool : JsValue) (rest : JsObj)
    (h : isPureObj rest = true) : isPureObj (optLabelField tool rest) = true := by
  unfold optLabelField
  split <;> simp [isPureObj, isPure, h]

theorem pure_optDescriptionField (tool : JsValue) (rest : JsObj)
    (h : isPureObj rest = true) : isPureObj (optDescriptionField tool rest) = true := by
  unfold optDescriptionField
  split <;> simp [isPureObj, isPure, h]

theorem pure_optParametersField (tool : JsValue) (rest : JsObj)
    (h : isPureObj rest = true) : isPureObj (optParametersField tool rest) = true := by
  unfold optParametersField
  split
  · split
    · next pv hclone =>
      have hpure : isPure pv = true := by
        unfold jsonClone at hclone
        cases hj : stringifyVal (getField tool "parameters") with
        | none => simp [hj] at hclone
        | some j =>
          simp [hj] at hclone
          subst hclone
          exact isPure_jsonToJs j
      simp [isPureObj, hpure, h]
    · exact h
  · exact h

theorem keys_optLabelField (tool : JsValue) (rest : JsObj) :
    objKeys (optLabelField tool rest) ⊆ "label" :: objKeys rest := by
  unfold optLabelField
  split
  · simp [objKeys]
  · intro a ha; exact List.mem_cons_of_mem _ ha

theorem keys_optDescriptionField (tool : JsValue) (rest : JsObj) :
    objKeys (optDescriptionField tool rest) ⊆ "description" :: objKeys rest := by
  unfold optDescriptionField
  split
  · simp [objKeys]
  · intro a ha; exact List.mem_cons_of_mem _ ha

theorem keys_optParametersField (tool : JsValue) (rest : JsObj) :
    objKeys (optParametersField tool rest) ⊆ "parameters" :: objKeys rest := by
  unfold optParametersField
  split
  · split
    · simp [objKeys]
    · intro a ha; exact List.mem_cons_of_mem _ ha
  · intro a ha; exact List.mem_cons_of_mem _ ha

theorem objGet_optLabelField (tool : JsValue) (rest : JsObj) (k : String)
    (hk : k ≠ "label") : objGet k (optLabelField tool rest) = objGet k rest := by
  have hk' : "label" ≠ k := Ne.symm hk
  unfold optLabelField
  split
  · simp [objGet, hk']
  · rfl

theorem objGet_optDescriptionField (tool : JsValue) (rest : JsObj) (k : String)
    (hk : k ≠ "description") :
    objGet k (optDescriptionField tool rest) = objGet k rest := by
  have hk' : "description" ≠ k := Ne.symm hk
  unfold optDescriptionField
  split
  · simp [objGet, hk']
  · rfl

theorem isPure_of_jsonClone (v pv : JsValue) (h : jsonClone v = some pv) :
    isPure pv = true := by
  unfold jsonClone at h
  cases hj : stringifyVal v with
  | none => simp [hj] at h
  | some j =>
    simp [hj] at h
    subst h
    exact isPure_jsonToJs j

theorem optParametersField_cases (tool : JsValue) :
    optParametersField tool .nil = .nil ∨
    ∃ pv, jsonClone (getField tool "parameters") = some pv ∧
      optParametersField tool .nil = .cons "parameters" pv .nil := by
  unfold optParametersField
  split
  · split
    · next pv hclone => exact Or.inr ⟨pv, hclone, rfl⟩
    · exact Or.inl rfl
  · exact Or.inl rfl

/-- C7: for every tool object, serializing and then JSON-encoding and
JSON-decoding the descriptor yields the same descriptor (the round trip
is the identity, hence the composition is idempotent) and preserves the
`name` field, which is the `String`-coercion of `tool.name ?? ""`; the
descriptor carries only the allow-listed keys `name`, `label`,
`description`, `parameters`; and when a `parameters` field is present it
is exactly the JSON round-trip deep clone of `tool.parameters`, a pure
JSON value detached from the source object. -/
theorem serializeToolDescriptor_roundTrip (tool : JsValue) :
    jsonClone (serializeToolDescriptor tool) = some (serializeToolDescriptor tool) ∧
    getField (serializeToolDescriptor tool) "name" = .str (coerceName tool) ∧
    fieldKeys (serializeToolDescriptor tool) ⊆ ["name", "label", "description", "parameters"] ∧
    (∀ pv : JsValue, getField (serializeToolDescriptor tool) "parameters" = pv →
      pv ≠ .undefined →
      jsonClone (getField tool "parameters") = some pv ∧ isPure pv = true) := by
  have hparamsGet : getField (serializeToolDescriptor tool) "parameters"
      = objGet "parameters" (optParametersField tool .nil) := by
    simp only [serializeToolDescriptor, getField, objGet]
    rw [if_neg (by decide)]
    rw [objGet_optLabelField _ _ _ (by decide),
      objGet_optDescriptionField _ _ _ (by decide)]
  refine ⟨?_, ?_, ?_, ?_⟩
  · apply jsonClone_pure
    simp only [serializeToolDescriptor, isPure, isPureObj, Bool.and_eq_true]
    exact ⟨trivial, pure_optLabelField _ _ (pure_optDescriptionField _ _
      (pure_optParametersField _ _ rfl))⟩
  · simp [serializeToolDescriptor, getField, objGet]
  · simp only [serializeToolDescriptor, fieldKeys, objKeys]
    intro a ha
    rcases List.mem_cons.mp ha with rfl | ha
    · simp
    · have h1 := keys_optLabelField tool
        (optDescriptionField tool (optParametersField tool .nil)) ha
      rcases List.mem_cons.mp h1 with rfl | h1
      · simp
      · have h2 := keys_optDescriptionField tool (optParametersField tool .nil) h1
        rcases List.mem_cons.mp h2 with rfl | h2
        · simp
        · have h3 := keys_optParametersField tool .nil h2
          rcases List.mem_cons.mp h3 with rfl | h3
          · simp
          · simp [objKeys] at h3
  · intro pv hget hne
    rcases optParametersField_cases tool with hnil | ⟨pv', hclone, heq⟩
    · rw [hparamsGet, hnil] at hget
      simp only [objGet] at hget
      exact absurd hget.symm hne
    · rw [hparamsGet, heq] at hget
      simp only [objGet, if_pos rfl] at hget
      subst hget
      exact ⟨hclone, isPure_of_jsonClone _ _ hclone⟩

/-- A concrete tool object: name `echo`, a label, a JSON-schema-like
`parameters` object, and a function-valued `execute` field. -/
def toolExample : JsValue :=
  .obj (.cons "name" (.str "echo")
    (.cons "label" (.str "Echo")
      (.cons "parameters"
        (.obj (.cons "type" (.str "object")
          (.cons "required" (.arr (.cons (.str "message") .nil)) .nil)))
        (.cons "execute" (.func 0) .nil))))

/-- Witness for C7 at `toolExample`: the round trip fixes the serialized
descriptor, and the present `parameters` field is the deep clone of the
source `parameters`. -/
theorem serializeToolDescriptor_roundTrip_witness :
    jsonClone (serializeToolDescriptor toolExample) = some (serializeToolDescriptor toolExample) ∧
    jsonClone (getField toolExample "parameters")
      = some (getField (serializeToolDescriptor toolExample) "parameters") ∧
    isPure (getField (serializeToolDescriptor toolExample) "parameters") = true := by
  have h := serializeToolDescriptor_roundTrip toolExample
  have hp := h.2.2.2 (getField (serializeToolDescriptor toolExample) "parameters") rfl
    (by decide)
  exact ⟨h.1, hp.1, hp.2⟩

/-!
Embedding of the request correlator (`rpc.ts`).  A `PendingRequest`'s
`resolve`﻿/`reject` closures settle a JS promise, which settles at most
once; the model keeps a `settled` ledger mapping each request id to the
outcome its promise received.  The `setTimeout` timer of a pending
request is identified with its table entry: `clearTimeout` is called
exactly when the entry is deleted (`resolve`, `reject`, `rejectAll`), and
the timeout callback itself removes the entry, so a request's timer can
fire if and only if its id is still in the pending table. -/

/-- How a request's promise settled. -/
inductive Outcome : Type where
  | value (v : JsValue) : Outcome
  | error (msg : String) : Outcome
deriving DecidableEq

/-- Association-list lookup, modelling `Map.get`. -/
def assocGet {α : Type} (l : List (String × α)) (k : String) : Option α :=
  match l with
  | [] => none
  | (key, v) :: tl => if key = k then some v else assocGet tl k

/-- Association-list update, modelling `Map.set` (overwrite or append). -/
def assocSet {α : Type} (l : List (String × α)) (k : String) (v : α) : List (String × α) :=
  match l with
  | [] => [(k, v)]
  | (key, old) :: tl => if key = k then (k, v) :: tl else (key, old) :: assocSet tl k v

/-- Association-list removal, modelling `Map.delete`. -/
def assocRemove {α : Type} (l : List (String × α)) (k : String) : List (String × α) :=
  match l with
  | [] => []
  | (key, v) :: tl => if key = k then assocRemove tl k else (key, v) :: assocRemove tl k

/-- Settle a promise ledger entry: a JS promise keeps its first
settlement, later settlements of the same promise are no-ops. -/
def settleOnce (l : List (String × Outcome)) (k : String) (o : Outcome) :
    List (String × Outcome) :=
  match assocGet l k with
  | some _ => l
  | none => l ++ [(k, o)]

/-- State of an `RpcCorrelator`: the `pending` table (request id to the
`timeoutMs` its timer was armed with) plus the promise ledger. -/
structure CorrState : Type where
  pending : List (String × Nat)
  settled : List (String × Outcome)
deriving DecidableEq

/-- The timeout rejection message of `createRequest` (`rpc.ts` line 20). -/
def timeoutErrorMsg (timeoutMs : Nat) (reqId : String) : String :=
  "RPC timeout after " ++ toString timeoutMs ++ "ms (reqId: " ++ reqId ++ ")"

/-- Embedding of `createRequest` (`rpc.ts` lines 15-25): registers a
pending entry whose timer is armed with `timeoutMs`.  The
cryptographically random `reqId` from `crypto.randomUUID()` is passed in
explicitly; freshness of the id is a hypothesis where a theorem needs
it. -/
def corrCreate (s : CorrState) (reqId : String) (timeoutMs : Nat) : CorrState :=
  { s with pending := assocSet s.pending reqId timeoutMs }

/-- Embedding of `resolve` (`rpc.ts` lines 27-34): unknown id is a
no-op returning `false`; otherwise the timer is cleared (the entry
leaves `pending`, so its timeout can no longer fire), the entry is
deleted, and the promise resolves with the value. -/
def corrResolve (s : CorrState) (reqId : String) (v : JsValue) : Bool × CorrState :=
  match assocGet s.pending reqId with
  | none => (false, s)
  | some _ =>
    (true, { pending := assocRemove s.pending reqId,
             settled := settleOnce s.settled reqId (.value v) })

/-- Embedding of `reject` (`rpc.ts` lines 36-43), symmetric to
`corrResolve`. -/
def corrReject (s : CorrState) (reqId : String) (e : String) : Bool × CorrState :=
  match assocGet s.pending reqId with
  | none => (false, s)
  | some _ =>
    (true, { pending := assocRemove s.pending reqId,
             settled := settleOnce s.settled reqId (.error e) })

/-- Embedding of `rejectAll` (`rpc.ts` lines 45-51): every pending
entry's timer is cleared, its promise rejects with the one error, and
the table is emptied. -/
def corrRejectAll (s : CorrState) (e : String) : CorrState :=
  { pending := [],
    settled := s.pending.foldl (fun acc p => settleOnce acc p.1 (.error e)) s.settled }

/-- The timeout callback armed by `createRequest` (`rpc.ts` lines
18-21) firing for `reqId`: it can run only while the entry is still
pending (a cleared timer never fires); it deletes the entry and rejects
with the timeout error. -/
def corrTimerFire (s : CorrState) (reqId : String) : CorrState :=
  match assocGet s.pending reqId with
  | none => s
  | some t =>
    { pending := assocRemove s.pending reqId,
      settled := settleOnce s.settled reqId (.error (timeoutErrorMsg t reqId)) }

/-- The `size` accessor (`rpc.ts` lines 53-55). -/
def corrSize (s : CorrState) : Nat :=
  s.pending.length

/-- The events that can act on one correlator instance. -/
inductive CorrEvent : Type where
  | create (reqId : String) (timeoutMs : Nat) : CorrEvent
  | resolveEv (reqId : String) (v : JsValue) : CorrEvent
  | rejectEv (reqId : String) (e : String) : CorrEvent
  | rejectAllEv (e : String) : CorrEvent
  | timerFire (reqId : String) : CorrEvent

/-- One correlator step. -/
def corrStep (s : CorrState) : CorrEvent → CorrState
  | .create reqId t => corrCreate s reqId t
  | .resolveEv reqId v => (corrResolve s reqId v).2
  | .rejectEv reqId e => (corrReject s reqId e).2
  | .rejectAllEv e => corrRejectAll s e
  | .timerFire reqId => corrTimerFire s reqId

/-- Run a sequence of correlator events. -/
def corrRun (s : CorrState) (evs : List CorrEvent) : CorrState :=
  evs.foldl corrStep s

theorem assocGet_append_left {α : Type} (l l' : List (String × α)) (k : String)
    (o : α) (h : assocGet l k = some o) : assocGet (l ++ l') k = some o := by
  induction l with
  | nil => simp [assocGet] at h
  | cons p tl ih =>
    obtain ⟨key, v⟩ := p
    by_cases hk : key = k
    · simp [assocGet, hk] at h ⊢
      exact h
    · simp [assocGet, hk] at h ⊢
      exact ih h

theorem settleOnce_preserves (l : List (String × Outcome)) (k k' : String)
    (o o' : Outcome) (h : assocGet l k = some o) :
    assocGet (settleOnce l k' o') k = some o := by
  unfold settleOnce
  cases hget : assocGet l k' with
  | some _ => exact h
  | none => exact assocGet_append_left _ _ _ _ h

theorem settleOnce_foldl_preserves (ps : List (String × Nat))
    (l : List (String × Outcome)) (k : String) (o : Outcome) (e : String)
    (h : assocGet l k = some o) :
    assocGet (ps.foldl (fun acc p => settleOnce acc p.1 (.error e)) l) k = some o := by
  induction ps generalizing l with
  | nil => exact h
  | cons p tl ih => exact ih _ (settleOnce_preserves _ _ _ _ _ h)

/-- Once a request's promise has settled, no later correlator event can
change what it settled with. -/
theorem corrStep_settled_stable (s : CorrState) (ev : CorrEvent) (k : String)
    (o : Outcome) (h : assocGet s.settled k = some o) :
    assocGet (corrStep s ev).settled k = some o := by
  cases ev with
  | create reqId t => exact h
  | resolveEv reqId v =>
    simp only [corrStep, corrResolve]
    cases hget : assocGet s.pending reqId with
    | none => exact h
    | some _ => exact settleOnce_preserves _ _ _ _ _ h
  | rejectEv reqId e =>
    simp only [corrStep, corrReject]
    cases hget : assocGet s.pending reqId with
    | none => exact h
    | some _ => exact settleOnce_preserves _ _ _ _ _ h
  | rejectAllEv e => exact settleOnce_foldl_preserves _ _ _ _ _ h
  | timerFire reqId =>
    simp only [corrStep, corrTimerFire]
    cases hget : assocGet s.pending reqId with
    | none => exact h
    | some t => exact settleOnce_preserves _ _ _ _ _ h

/-- Ledger stability over any run of correlator events. -/
theorem corrRun_settled_stable (evs : List CorrEvent) (s : CorrState) (k : String)
    (o : Outcome) (h : assocGet s.settled k = some o) :
    assocGet (corrRun s evs).settled k = some o := by
  induction evs generalizing s with
  | nil => exact h
  | cons ev tl ih => exact ih _ (corrStep_settled_stable s ev k o h)

theorem assocGet_assocRemove {α : Type} (l : List (String × α)) (k : String) :
    assocGet (assocRemove l k) k = none := by
  induction l with
  | nil => rfl
  | cons p tl ih =>
    obtain ⟨key, v⟩ := p
    by_cases hk : key = k
    · simpa [assocRemove, hk]
    · simp [assocRemove, assocGet, hk, ih]

theorem settleOnce_fresh (l : List (String × Outcome)) (k : String) (o : Outcome)
    (h : assocGet l k = none) : assocGet (settleOnce l k o) k = some o := by
  unfold settleOnce
  rw [h]
  induction l with
  | nil => simp [assocGet]
  | cons p tl ih =>
    obtain ⟨key, v⟩ := p
    by_cases hk : key = k
    · simp [assocGet, hk] at h
    · simp [assocGet, hk] at h ⊢
      exact ih h

theorem assocGet_append_single {α : Type} (l : List (String × α)) (k k' : String)
    (o : α) (h : assocGet l k = none) :
    assocGet (l ++ [(k', o)]) k = if k' = k then some o else none := by
  induction l with
  | nil => rfl
  | cons p tl ih =>
    obtain ⟨key, v⟩ := p
    by_cases hk : key = k
    · simp [assocGet, hk] at h
    · simp [assocGet, hk] at h ⊢
      exact ih h

theorem settleOnce_other (l : List (String × Outcome)) (k k' : String) (o : Outcome)
    (hk : k' ≠ k) (h : assocGet l k = none) : assocGet (settleOnce l k' o) k = none := by
  unfold settleOnce
  cases hget : assocGet l k' with
  | some _ => exact h
  | none => simp [assocGet_append_single _ _ _ _ h, hk]

theorem rejectAll_foldl_settles (ps : List (String × Nat)) (acc : List (String × Outcome))
    (reqId : String) (t : Nat) (e : String) (hp : assocGet ps reqId = some t)
    (hacc : assocGet acc reqId = none) :
    assocGet (ps.foldl (fun a p => settleOnce a p.1 (.error e)) acc) reqId
      = some (.error e) := by
  induction ps generalizing acc with
  | nil => simp [assocGet] at hp
  | cons p tl ih =>
    obtain ⟨key, v⟩ := p
    simp only [List.foldl_cons]
    by_cases hk : key = reqId
    · subst hk
      have hset : assocGet (settleOnce acc key (.error e)) key = some (.error e) :=
        settleOnce_fresh _ _ _ hacc
      exact settleOnce_foldl_preserves tl _ _ _ _ hset
    · simp [assocGet, hk] at hp
      exact ih _ hp (settleOnce_other _ _ _ _ hk hacc)

/-- C5: `resolve` and `reject` on a request id unknown to the correlator
(never created, or already resolved, rejected or timed out, so absent
from the pending table) return `false` and change no state; a duplicate
or late `invoke:result` for such an id is therefore harmless. -/
theorem corr_unknown_id_noop (s : CorrState) (reqId : String) (v : JsValue) (e : String)
    (h : assocGet s.pending reqId = none) :
    corrResolve s reqId v = (false, s) ∧ corrReject s reqId e = (false, s) := by
  unfold corrResolve corrReject
  rw [h]
  exact ⟨rfl, rfl⟩

/-- Witness for C5: on a correlator holding one pending request,
resolving and rejecting a different id returns `false` and leaves the
state untouched. -/
theorem corr_unknown_id_noop_witness :
    corrResolve ⟨[("req-1", 5000)], []⟩ "unknown" (.str "x") = (false, ⟨[("req-1", 5000)], []⟩) ∧
    corrReject ⟨[("req-1", 5000)], []⟩ "unknown" "boom" = (false, ⟨[("req-1", 5000)], []⟩) :=
  corr_unknown_id_noop ⟨[("req-1", 5000)], []⟩ "unknown" (.str "x") "boom" (by decide)

/-- C6: `rejectAll(error)` empties the pending table (count exactly
zero), rejects every promise outstanding at call time with that same
error, and clears every pending timer — afterwards no request's timeout
can fire at all. -/
theorem corrRejectAll_spec (s : CorrState) (e : String) :
    corrSize (corrRejectAll s e) = 0 ∧
    (∀ reqId t, assocGet s.pending reqId = some t →
      assocGet s.settled reqId = none →
      assocGet (corrRejectAll s e).settled reqId = some (.error e)) ∧
    (∀ reqId, corrTimerFire (corrRejectAll s e) reqId = corrRejectAll s e) := by
  refine ⟨rfl, ?_, ?_⟩
  · intro reqId t hp hs
    exact rejectAll_foldl_settles _ _ _ _ _ hp hs
  · intro reqId
    rfl

/-- Witness for C6: rejecting all of two outstanding requests empties
the table and rejects each with the shared error. -/
theorem corrRejectAll_spec_witness :
    corrSize (corrRejectAll ⟨[("req-1", 5000), ("req-2", 5000)], []⟩ "shutdown") = 0 ∧
    assocGet (corrRejectAll ⟨[("req-1", 5000), ("req-2", 5000)], []⟩ "shutdown").settled
      "req-1" = some (.error "shutdown") ∧
    assocGet (corrRejectAll ⟨[("req-1", 5000), ("req-2", 5000)], []⟩ "shutdown").settled
      "req-2" = some (.error "shutdown") := by
  have h := corrRejectAll_spec ⟨[("req-1", 5000), ("req-2", 5000)], []⟩ "shutdown"
  exact ⟨h.1, h.2.1 "req-1" 5000 (by decide) (by decide),
    h.2.1 "req-2" 5000 (by decide) (by decide)⟩

/-- C8: a pending request resolved (or rejected) before its timeout has
its entry removed, its timer cancelled — firing the timeout afterwards is
a no-op — and its promise keeps the resolved value (resp. the rejection
error) through every later correlator event; conversely, if the timeout
fires first, the request leaves the table and its promise rejects with
the timeout error, whose message carries the request id. -/
theorem corr_timeout_race (s : CorrState) (reqId : String) (t : Nat) (v : JsValue)
    (e : String) (hpend : assocGet s.pending reqId = some t)
    (hunset : assocGet s.settled reqId = none) :
    (assocGet ((corrResolve s reqId v).2).pending reqId = none ∧
     corrTimerFire (corrResolve s reqId v).2 reqId = (corrResolve s reqId v).2 ∧
     ∀ evs : List CorrEvent,
       assocGet (corrRun ((corrResolve s reqId v).2) evs).settled reqId
         = some (.value v)) ∧
    (assocGet ((corrReject s reqId e).2).pending reqId = none ∧
     corrTimerFire (corrReject s reqId e).2 reqId = (corrReject s reqId e).2 ∧
     ∀ evs : List CorrEvent,
       assocGet (corrRun ((corrReject s reqId e).2) evs).settled reqId
         = some (.error e)) ∧
    (assocGet (corrTimerFire s reqId).pending reqId = none ∧
     assocGet (corrTimerFire s reqId).settled reqId
       = some (.error (timeoutErrorMsg t reqId)) ∧
     ∃ pre post, timeoutErrorMsg t reqId = pre ++ reqId ++ post) := by
  have hres : (corrResolve s reqId v).2
      = { pending := assocRemove s.pending reqId,
          settled := settleOnce s.settled reqId (.value v) } := by
    unfold corrResolve; rw [hpend]
  have hrej : (corrReject s reqId e).2
      = { pending := assocRemove s.pending reqId,
          settled := settleOnce s.settled reqId (.error e) } := by
    unfold corrReject; rw [hpend]
  have hfire : corrTimerFire s reqId
      = { pending := assocRemove s.pending reqId,
          settled := settleOnce s.settled reqId (.error (timeoutErrorMsg t reqId)) } := by
    unfold corrTimerFire; rw [hpend]
  have hgone : assocGet (assocRemove s.pending reqId) reqId = none :=
    assocGet_assocRemove _ _
  refine ⟨⟨?_, ?_, ?_⟩, ⟨?_, ?_, ?_⟩, ?_, ?_, ?_⟩
  · rw [hres]; exact hgone
  · rw [hres]; unfold corrTimerFire; rw [hgone]
  · intro evs
    apply corrRun_settled_stable
    rw [hres]
    exact settleOnce_fresh _ _ _ hunset
  · rw [hrej]; exact hgone
  · rw [hrej]; unfold corrTimerFire; rw [hgone]
  · intro evs
    apply corrRun_settled_stable
    rw [hrej]
    exact settleOnce_fresh _ _ _ hunset
  · rw [hfire]; exact hgone
  · rw [hfire]; exact settleOnce_fresh _ _ _ hunset
  · exact ⟨"RPC timeout after " ++ toString t ++ "ms (reqId: ", ")", rfl⟩

/-- Witness for C8 on a one-request correlator: early resolution removes
the entry and survives a later timer fire, while a timeout-first run
rejects with the id-carrying message. -/
theorem corr_timeout_race_witness :
    assocGet ((corrResolve ⟨[("req-1", 1000)], []⟩ "req-1" (.str "early")).2).pending
      "req-1" = none ∧
    assocGet (corrRun ((corrResolve ⟨[("req-1", 1000)], []⟩ "req-1" (.str "early")).2)
      [.timerFire "req-1"]).settled "req-1" = some (.value (.str "early")) ∧
    assocGet (corrTimerFire ⟨[("req-1", 1000)], []⟩ "req-1").settled "req-1"
      = some (.error (timeoutErrorMsg 1000 "req-1")) := by
  have h := corr_timeout_race ⟨[("req-1", 1000)], []⟩ "req-1" 1000 (.str "early") "err"
    (by decide) (by decide)
  exact ⟨h.1.1, h.1.2.2 [.timerFire "req-1"], h.2.2.2.1⟩

/-!
Embedding of the worker-side entry point (`worker-entry.ts`).  The four
handler maps store opaque function identifiers; the state's `funcImpl`
environment gives each identifier its meaning as a Lean function from an
argument list to `Except String JsValue`, where the `error` case models
a thrown value already rendered by `String(err)`. -/

/-- Log levels of a `log` message (`protocol.ts` lines 113-118). -/
inductive LogLevel : Type where
  | info : LogLevel
  | warn : LogLevel
  | error : LogLevel
  | debug : LogLevel
deriving DecidableEq

/-- Messages the worker posts to the main thread (`protocol.ts`
`WorkerToMainMessage`).  An `Option` field is `none` when the source
omits the field and `some .undefined` when it explicitly writes
`undefined`. -/
inductive WorkerToMainMessage : Type where
  | registerTool (descriptor : JsValue) : WorkerToMainMessage
  | registerHook (hookName handlerId : String) (priority : Option Int) : WorkerToMainMessage
  | registerService (serviceId : String) : WorkerToMainMessage
  | registerCommand (name : String) (description usage : Option String) : WorkerToMainMessage
  | registrationComplete : WorkerToMainMessage
  | registrationError (error : String) : WorkerToMainMessage
  | unsupportedApi (method error : String) : WorkerToMainMessage
  | invokeResult (reqId : String) (ok : Bool) (value : Option JsValue)
      (error : Option String) : WorkerToMainMessage
  | log (level : LogLevel) (message : String) (args : Option (List JsValue)) : WorkerToMainMessage
deriving DecidableEq

/-- Plugin metadata carried by the init message (`protocol.ts`). -/
structure PluginMetadata : Type where
  id : String
  name : String
  version : Option String
  description : Option String
deriving DecidableEq

/-- The once-only init message (`protocol.ts` `WorkerInitMessage`). -/
structure WorkerInitMessage : Type where
  pluginId : String
  pluginSource : String
  pluginConfig : Option JsValue
  metadata : PluginMetadata
  jitiAlias : Option (List (String × String))
deriving DecidableEq

/-- Messages the main thread posts to the worker (`protocol.ts`
`MainToWorkerMessage`). -/
inductive MainToWorkerMessage : Type where
  | init (m : WorkerInitMessage) : MainToWorkerMessage
  | invokeTool (reqId toolName : String) (args : JsValue) : MainToWorkerMessage
  | invokeHook (reqId hookName handlerId : String) (event : JsValue) : MainToWorkerMessage
  | invokeServiceStart (reqId serviceId : String) : MainToWorkerMessage
  | invokeServiceStop (reqId serviceId : String) : MainToWorkerMessage
  | invokeCommand (reqId commandName : String) (args : List String)
      (context : JsValue) : MainToWorkerMessage

/-- The worker's handler storage (`worker-entry.ts` lines 24-34): tool
name, hook handler id, service id and command name maps, each holding
function identifiers, plus the environment interpreting those
identifiers.  A service entry keeps its optional `start` and `stop`
executors. -/
structure WorkerState : Type where
  funcImpl : Nat → List JsValue → Except String JsValue
  toolHandlers : List (String × Nat)
  hookHandlers : List (String × Nat)
  serviceHandlers : List (String × (Option Nat × Option Nat))
  commandHandlers : List (String × Nat)

/-- Build the JS array value for a command's `string[]` argument list. -/
def jsStrArr (args : List String) : JsValue :=
  .arr (args.foldr (fun s acc => .cons (.str s) acc) .nil)

/-- Embedding of `handleInvocation` (`worker-entry.ts` lines 145-275):
services one invocation message and returns the messages it posts.  A
tool or command lookup miss posts `ok:false` with a "not found" error;
a hook lookup miss posts `ok:true` with `value: undefined`; a service
lookup miss (or a service without the requested executor, via the
optional-chaining `svc?.start?.()`) posts `ok:true`.  Handler throws are
caught and posted as `ok:false` with `String(err)`; messages with an
unrecognized type fall through and post nothing. -/
def handleInvocation (st : WorkerState) : MainToWorkerMessage → List WorkerToMainMessage
  | .init _ => []
  | .invokeTool reqId toolName args =>
    match assocGet st.toolHandlers toolName with
    | none => [.invokeResult reqId false none (some ("tool not found: " ++ toolName))]
    | some fid =>
      match st.funcImpl fid [args] with
      | .ok value => [.invokeResult reqId true (some value) none]
      | .error err => [.invokeResult reqId false none (some err)]
  | .invokeHook reqId _hookName handlerId event =>
    match assocGet st.hookHandlers handlerId with
    | none => [.invokeResult reqId true (some .undefined) none]
    | some fid =>
      match st.funcImpl fid [event] with
      | .ok value => [.invokeResult reqId true (some value) none]
      | .error err => [.invokeResult reqId false none (some err)]
  | .invokeServiceStart reqId serviceId =>
    match assocGet st.serviceHandlers serviceId with
    | none => [.invokeResult reqId true none none]
    | some (startFid, _) =>
      match startFid with
      | none => [.invokeResult reqId true none none]
      | some fid =>
        match st.funcImpl fid [] with
        | .ok _ => [.invokeResult reqId true none none]
        | .error err => [.invokeResult reqId false none (some err)]
  | .invokeServiceStop reqId serviceId =>
    match assocGet st.serviceHandlers serviceId with
    | none => [.invokeResult reqId true none none]
    | some (_, stopFid) =>
      match stopFid with
      | none => [.invokeResult reqId true none none]
      | some fid =>
        match st.funcImpl fid [] with
        | .ok _ => [.invokeResult reqId true none none]
        | .error err => [.invokeResult reqId false none (some err)]
  | .invokeCommand reqId commandName args context =>
    match assocGet st.commandHandlers commandName with
    | none => [.invokeResult reqId false none (some ("command not found: " ++ commandName))]
    | some fid =>
      match st.funcImpl fid [jsStrArr args, context] with
      | .ok value => [.invokeResult reqId true (some value) none]
      | .error err => [.invokeResult reqId false none (some err)]

/-- The `typeof tool.execute === "function"` check of `registerTool`:
extracts the function identifier when the field holds a function. -/
def asFunc : JsValue → Option Nat
  | .func fid => some fid
  | _ => none

/-- The effective tool name `opts?.name || descriptor.name`
(`worker-entry.ts` line 80): a truthy (non-empty) option name wins,
otherwise the serialized descriptor's name is used.  `none` covers both
an absent `opts` and an `opts` without `name`. -/
def effectiveToolName (optsName : Option String) (descriptorName : String) : String :=
  match optsName with
  | some s => if s = "" then descriptorName else s
  | none => descriptorName

/-- Embedding of the bridge API's `registerTool` (`worker-entry.ts`
lines 78-93): serialize the tool, compute the effective name, refuse an
empty name with an error log and no forwarded message; otherwise
overwrite the descriptor's name, store the executor locally only when
`tool.execute` is a function, and post `register:tool`. -/
def registerTool (st : WorkerState) (tool : JsValue) (optsName : Option String) :
    WorkerState × List WorkerToMainMessage :=
  let descriptor := serializeToolDescriptor tool
  let name := effectiveToolName optsName (descStrField descriptor "name")
  if name = "" then
    (st, [.log .error "registerTool: missing tool name" none])
  else
    match asFunc (getField tool "execute") with
    | some fid =>
      ({ st with toolHandlers := assocSet st.toolHandlers name fid },
       [.registerTool (setField descriptor "name" (.str name))])
    | none => (st, [.registerTool (setField descriptor "name" (.str name))])

/-- The fixed unsupported-method list (`worker-entry.ts` lines 37-44). -/
def UNSUPPORTED_METHODS : List String :=
  ["registerChannel", "registerProvider", "registerHttpHandler",
   "registerHttpRoute", "registerGatewayMethod", "registerCli"]

/-- One call of an unsupported bridge method (`worker-entry.ts` lines
52-58): the messages it posts and the error it throws. -/
def unsupportedMethodCall (method : String) : List WorkerToMainMessage × String :=
  ([.unsupportedApi method (method ++ " is not supported in isolated (worker) mode")],
   method ++ " is not supported in isolated (worker) mode")

/-- One read of the bridge API's `runtime` getter (`worker-entry.ts`
lines 68-70): it throws synchronously and posts nothing. -/
def runtimeAccessorCall : List WorkerToMainMessage × String :=
  ([], "api.runtime is not available in isolated mode")

/-- An environment with no function implementations. -/
def noFuncs : Nat → List JsValue → Except String JsValue :=
  fun _ _ => .error "Error: no such function"

/-- A worker state with all four handler maps empty. -/
def emptyWorkerState : WorkerState :=
  ⟨noFuncs, [], [], [], []⟩

/-- C1 counterexample: an `invoke:hook` whose handler id is in no map is
answered with `ok:true` (and `value: undefined`), not with an `ok:false`
"not found" error as the claim states for every invocation type; the
same holds for `invoke:service:start`. -/
theorem handleInvocation_hook_miss_ok :
    handleInvocation emptyWorkerState (.invokeHook "r1" "session_start" "p:session_start" .jsNull)
      = [.invokeResult "r1" true (some .undefined) none] ∧
    handleInvocation emptyWorkerState (.invokeServiceStart "r2" "svc")
      = [.invokeResult "r2" true none none] ∧
    (.invokeResult "r1" true (some .undefined) none :
        WorkerToMainMessage) ≠ .invokeResult "r1" false none (some "hook not found: p:session_start") :=
  ⟨rfl, rfl, by decide⟩

/-- C1 (amended): a handler-map miss never throws and always posts
exactly one `invoke:result` carrying the request id, but the payload
depends on the invocation type: `invoke:tool` and `invoke:command`
misses post `ok:false` with descriptive `tool not found:`﻿/`command not
found:` errors (so invoking an unregistered tool name rejects with an
error containing "tool not found"), while `invoke:hook`,
`invoke:service:start` and `invoke:service:stop` misses post
`ok:true`. -/
theorem handleInvocation_miss_spec (st : WorkerState) (reqId name hookName : String)
    (args event context : JsValue) (cmdArgs : List String) :
    (assocGet st.toolHandlers name = none →
      handleInvocation st (.invokeTool reqId name args)
        = [.invokeResult reqId false none (some ("tool not found: " ++ name))] ∧
      "tool not found: " ++ name = "tool not found" ++ (": " ++ name)) ∧
    (assocGet st.hookHandlers name = none →
      handleInvocation st (.invokeHook reqId hookName name event)
        = [.invokeResult reqId true (some .undefined) none]) ∧
    (assocGet st.serviceHandlers name = none →
      handleInvocation st (.invokeServiceStart reqId name)
        = [.invokeResult reqId true none none] ∧
      handleInvocation st (.invokeServiceStop reqId name)
        = [.invokeResult reqId true none none]) ∧
    (assocGet st.commandHandlers name = none →
      handleInvocation st (.invokeCommand reqId name cmdArgs context)
        = [.invokeResult reqId false none (some ("command not found: " ++ name))]) := by
  refine ⟨?_, ?_, ?_, ?_⟩
  · intro h
    constructor
    · simp [handleInvocation, h]
    · rfl
  · intro h
    simp [handleInvocation, h]
  · intro h
    constructor <;> simp [handleInvocation, h]
  · intro h
    simp [handleInvocation, h]

/-- Witness for the amended C1 on the empty worker state: each of the
five miss responses, concretely. -/
theorem handleInvocation_miss_spec_witness :
    handleInvocation emptyWorkerState (.invokeTool "r1" "echo" (.obj .nil))
      = [.invokeResult "r1" false none (some "tool not found: echo")] ∧
    handleInvocation emptyWorkerState (.invokeHook "r2" "h" "echo" .jsNull)
      = [.invokeResult "r2" true (some .undefined) none] ∧
    handleInvocation emptyWorkerState (.invokeServiceStart "r3" "echo")
      = [.invokeResult "r3" true none none] ∧
    handleInvocation emptyWorkerState (.invokeServiceStop "r4" "echo")
      = [.invokeResult "r4" true none none] ∧
    handleInvocation emptyWorkerState (.invokeCommand "r5" "echo" [] (.obj .nil))
      = [.invokeResult "r5" false none (some "command not found: echo")] := by
  have h1 := handleInvocation_miss_spec emptyWorkerState "r1" "echo" "h" (.obj .nil) .jsNull
    (.obj .nil) []
  have h2 := handleInvocation_miss_spec emptyWorkerState "r2" "echo" "h" (.obj .nil) .jsNull
    (.obj .nil) []
  have h3 := handleInvocation_miss_spec emptyWorkerState "r3" "echo" "h" (.obj .nil) .jsNull
    (.obj .nil) []
  have h4 := handleInvocation_miss_spec emptyWorkerState "r4" "echo" "h" (.obj .nil) .jsNull
    (.obj .nil) []
  have h5 := handleInvocation_miss_spec emptyWorkerState "r5" "echo" "h" (.obj .nil) .jsNull
    (.obj .nil) []
  exact ⟨(h1.1 rfl).1, h2.2.1 rfl, (h3.2.2.1 rfl).1, (h4.2.2.1 rfl).2, h5.2.2.2 rfl⟩

/-- C3 counterexample: reading the `runtime` accessor throws but posts
no message at all — in particular not the one `unsupported:api`
notification the claim requires for it. -/
theorem runtimeAccessor_posts_nothing :
    runtimeAccessorCall.1 = [] ∧
    runtimeAccessorCall.2 = "api.runtime is not available in isolated mode" :=
  ⟨rfl, rfl⟩

/-- C3 (amended): each call of one of the six unsupported bridge methods
(`registerChannel`, `registerProvider`, `registerHttpHandler`,
`registerHttpRoute`, `registerGatewayMethod`, `registerCli`) posts
exactly one `unsupported:api` message naming the method and then throws
synchronously with the same error text; the `runtime` accessor also
throws synchronously on every read, but posts no `unsupported:api`
message. -/
theorem unsupportedMethodCall_spec (method : String)
    (_h : method ∈ UNSUPPORTED_METHODS) :
    (unsupportedMethodCall method).1
      = [.unsupportedApi method (method ++ " is not supported in isolated (worker) mode")] ∧
    (unsupportedMethodCall method).2
      = method ++ " is not supported in isolated (worker) mode" ∧
    runtimeAccessorCall.1 = [] ∧
    runtimeAccessorCall.2 = "api.runtime is not available in isolated mode" :=
  ⟨rfl, rfl, rfl, rfl⟩

/-- Witness for the amended C3 at `registerChannel`. -/
theorem unsupportedMethodCall_spec_witness :
    (unsupportedMethodCall "registerChannel").1
      = [.unsupportedApi "registerChannel"
          "registerChannel is not supported in isolated (worker) mode"] ∧
    (unsupportedMethodCall "registerChannel").2
      = "registerChannel is not supported in isolated (worker) mode" :=
  ⟨(unsupportedMethodCall_spec "registerChannel" (by decide)).1,
   (unsupportedMethodCall_spec "registerChannel" (by decide)).2.1⟩

/-- C9: the serialized descriptor's `name` is the `String`-coercion of
`tool.name ?? ""`; when the effective registration name is empty the
registration is refused: `registerTool` leaves the handler maps
untouched, posts only an error log, and forwards no `register:tool`
message. -/
theorem registerTool_missing_name (st : WorkerState) (tool : JsValue)
    (optsName : Option String)
    (h : effectiveToolName optsName (descStrField (serializeToolDescriptor tool) "name") = "") :
    registerTool st tool optsName
      = (st, [.log .error "registerTool: missing tool name" none]) ∧
    (∀ m ∈ (registerTool st tool optsName).2, ∀ d, m ≠ .registerTool d) ∧
    descStrField (serializeToolDescriptor tool) "name" = coerceName tool := by
  have heq : registerTool st tool optsName
      = (st, [.log .error "registerTool: missing tool name" none]) := by
    unfold registerTool
    rw [if_pos h]
  refine ⟨heq, ?_, ?_⟩
  · intro m hm d
    rw [heq] at hm
    simp at hm
    subst hm
    simp
  · simp [descStrField, serializeToolDescriptor, getField, objGet]

/-- Witness for C9: a tool object with no `name` field coerces to the
empty name and is refused with only an error log. -/
theorem registerTool_missing_name_witness :
    registerTool emptyWorkerState (.obj .nil) none
      = (emptyWorkerState, [.log .error "registerTool: missing tool name" none]) ∧
    descStrField (serializeToolDescriptor (.obj .nil)) "name" = coerceName (.obj .nil) :=
  ⟨(registerTool_missing_name emptyWorkerState (.obj .nil) none (by decide)).1,
   (registerTool_missing_name emptyWorkerState (.obj .nil) none (by decide)).2.2⟩

/-- C10: registering a tool whose `execute` field is not a function (and
whose effective name is non-empty) still posts the `register:tool`
message, but stores no executor; a later `invoke:tool` for that name —
absent any other registration under it — is answered `ok:false` with a
"tool not found" error. -/
theorem registerTool_nonfunction_execute (st : WorkerState) (tool : JsValue)
    (optsName : Option String) (reqId : String) (args : JsValue)
    (hexec : asFunc (getField tool "execute") = none)
    (hname : effectiveToolName optsName
      (descStrField (serializeToolDescriptor tool) "name") ≠ "")
    (habsent : assocGet st.toolHandlers
      (effectiveToolName optsName (descStrField (serializeToolDescriptor tool) "name"))
        = none) :
    (registerTool st tool optsName).1 = st ∧
    (registerTool st tool optsName).2
      = [.registerTool (setField (serializeToolDescriptor tool) "name"
          (.str (effectiveToolName optsName
            (descStrField (serializeToolDescriptor tool) "name"))))] ∧
    handleInvocation (registerTool st tool optsName).1
        (.invokeTool reqId
          (effectiveToolName optsName (descStrField (serializeToolDescriptor tool) "name"))
          args)
      = [.invokeResult reqId false none
          (some ("tool not found: "
            ++ effectiveToolName optsName
              (descStrField (serializeToolDescriptor tool) "name")))] := by
  have heq : registerTool st tool optsName
      = (st, [.registerTool (setField (serializeToolDescriptor tool) "name"
          (.str (effectiveToolName optsName
            (descStrField (serializeToolDescriptor tool) "name"))))]) := by
    unfold registerTool
    rw [if_neg hname, hexec]
  refine ⟨by rw [heq], by rw [heq], ?_⟩
  rw [heq]
  simp [handleInvocation, habsent]

/-- A tool object named `echo` whose `execute` field is the string
`"nope"`, not a function. -/
def toolNonFuncExecute : JsValue :=
  .obj (.cons "name" (.str "echo") (.cons "execute" (.str "nope") .nil))

/-- Witness for C10: a tool named `echo` whose `execute` is the string
`"nope"` is forwarded as a capability, yet invoking `echo` afterwards
reports `tool not found`. -/
theorem registerTool_nonfunction_execute_witness :
    (registerTool emptyWorkerState toolNonFuncExecute none).1 = emptyWorkerState ∧
    handleInvocation (registerTool emptyWorkerState toolNonFuncExecute none).1
        (.invokeTool "r1"
          (effectiveToolName none
            (descStrField (serializeToolDescriptor toolNonFuncExecute) "name"))
          (.obj .nil))
      = [.invokeResult "r1" false none
          (some ("tool not found: "
            ++ effectiveToolName none
              (descStrField (serializeToolDescriptor toolNonFuncExecute) "name")))] :=
  ⟨(registerTool_nonfunction_execute emptyWorkerState toolNonFuncExecute none "r1"
      (.obj .nil) (by decide) (by decide) (by decide)).1,
   (registerTool_nonfunction_execute emptyWorkerState toolNonFuncExecute none "r1"
      (.obj .nil) (by decide) (by decide) (by decide)).2.2⟩

/-!
Embedding of the host-side supervisor (`main-host.ts`).  The `ready`
promise is modelled by its settlement state (`none` while unsettled); JS
promises keep their first settlement, so the resolve/reject closures are
no-ops once it is `some`.  The registration `setTimeout` is modelled by
the `regTimerActive` flag: `clearTimeout` disarms it, and its callback
can only run while it is armed.  Messages posted to the worker are
accumulated in `postedToWorker`. -/

/-- The fixed timeouts (`main-host.ts` lines 20-25). -/
def REGISTRATION_TIMEOUT_MS : Nat := 10000

/-- Tool (and command) invocation timeout. -/
def TOOL_INVOKE_TIMEOUT_MS : Nat := 60000

/-- Hook invocation timeout. -/
def HOOK_INVOKE_TIMEOUT_MS : Nat := 5000

/-- Service start timeout. -/
def SERVICE_START_TIMEOUT_MS : Nat := 30000

/-- Service stop timeout. -/
def SERVICE_STOP_TIMEOUT_MS : Nat := 5000

/-- State of one `createWorkerHost` supervisor instance. -/
structure HostState : Type where
  pluginId : String
  terminated : Bool
  regTimerActive : Bool
  ready : Option (Except String Unit)
  corr : CorrState
  postedToWorker : List MainToWorkerMessage

/-- Fulfil the ready promise: a no-op when it has already settled. -/
def settleOk (p : Option (Except String Unit)) : Option (Except String Unit) :=
  match p with
  | none => some (.ok ())
  | some o => some o

/-- Reject the ready promise: a no-op when it has already settled. -/
def settleErr (p : Option (Except String Unit)) (e : String) :
    Option (Except String Unit) :=
  match p with
  | none => some (.error e)
  | some o => some o

/-- The supervisor's message dispatch (`main-host.ts` lines 114-178)
restricted to the messages that change supervisor state:
`registration:complete`﻿/`registration:error` clear the timer and settle
the ready promise; `invoke:result` routes to the correlator (`resolve`
on `ok:true` with the carried value, `reject` on `ok:false` with the
carried error or `"unknown worker error"`); the `register:*`, `log` and
`unsupported:api` cases only forward to host callbacks or the logger. -/
def onWorkerMessage (s : HostState) (m : WorkerToMainMessage) : HostState :=
  match m with
  | .registrationComplete =>
    { s with regTimerActive := false, ready := settleOk s.ready }
  | .registrationError e =>
    { s with regTimerActive := false,
             ready := settleErr s.ready
               ("plugin " ++ s.pluginId ++ " registration failed: " ++ e) }
  | .invokeResult reqId ok value error =>
    if ok then
      { s with corr := (corrResolve s.corr reqId (value.getD .undefined)).2 }
    else
      { s with corr := (corrReject s.corr reqId (error.getD "unknown worker error")).2 }
  | _ => s

/-- The `worker.on("error")` handler (`main-host.ts` lines 181-185):
clears the registration timer, rejects the ready promise with the error
(modelled by its string rendering), and rejects all pending requests
with a `worker crashed:` error. -/
def onWorkerError (s : HostState) (err : String) : HostState :=
  { s with regTimerActive := false,
           ready := settleErr s.ready err,
           corr := corrRejectAll s.corr ("worker crashed: " ++ err) }

/-- The `worker.on("exit")` handler (`main-host.ts` lines 187-193): a
non-zero code rejects the ready promise and all pending requests with a
`worker exited with code` error; note it does not clear the registration
timer. -/
def onWorkerExit (s : HostState) (code : Int) : HostState :=
  if code ≠ 0 then
    { s with ready := settleErr s.ready ("worker exited with code " ++ toString code),
             corr := corrRejectAll s.corr ("worker exited with code " ++ toString code) }
  else s

/-- The registration timer (`main-host.ts` lines 109-111) firing: it can
only run while armed; it rejects the ready promise (a no-op when that
promise has already settled). -/
def onRegistrationTimeout (s : HostState) : HostState :=
  if s.regTimerActive then
    { s with regTimerActive := false,
             ready := settleErr s.ready
               ("plugin " ++ s.pluginId ++ " registration timed out after "
                 ++ toString REGISTRATION_TIMEOUT_MS ++ "ms") }
  else s

/-- The payload of one public invocation call. -/
inductive InvokeKind : Type where
  | tool (toolName : String) (args : JsValue) : InvokeKind
  | hook (hookName handlerId : String) (event : JsValue) : InvokeKind
  | serviceStart (serviceId : String) : InvokeKind
  | serviceStop (serviceId : String) : InvokeKind
  | command (commandName : String) (args : List String) (context : JsValue) : InvokeKind

/-- The method-specific timeout each invocation method passes to
`createRequest` (`main-host.ts` lines 214, 222, 230, 238, 250). -/
def invokeTimeoutMs : InvokeKind → Nat
  | .tool _ _ => TOOL_INVOKE_TIMEOUT_MS
  | .hook _ _ _ => HOOK_INVOKE_TIMEOUT_MS
  | .serviceStart _ => SERVICE_START_TIMEOUT_MS
  | .serviceStop _ => SERVICE_STOP_TIMEOUT_MS
  | .command _ _ _ => TOOL_INVOKE_TIMEOUT_MS

/-- The invoke message each invocation method posts to the worker. -/
def invokeMessage (k : InvokeKind) (reqId : String) : MainToWorkerMessage :=
  match k with
  | .tool name args => .invokeTool reqId name args
  | .hook hookName handlerId event => .invokeHook reqId hookName handlerId event
  | .serviceStart serviceId => .invokeServiceStart reqId serviceId
  | .serviceStop serviceId => .invokeServiceStop reqId serviceId
  | .command name args context => .invokeCommand reqId name args context

/-- Result of the synchronous prefix of a public invocation call. -/
inductive InvokeOutcome : Type where
  | thrown (error : String) : InvokeOutcome
  | awaitingReady : InvokeOutcome
  | readyRejected (error : String) : InvokeOutcome
  | posted (reqId : String) : InvokeOutcome
deriving DecidableEq

/-- Embedding of the five public invocation methods (`main-host.ts`
lines 211-253), which share one shape: throw `"worker terminated"` at
once when the latch is set (before contacting the correlator or the
worker); otherwise `await ready` — `awaitingReady` models the suspension
while the promise is unsettled, `readyRejected` the throw when it was
rejected — then create a correlated request with the method-specific
timeout and post the invoke message.  The fresh `reqId` produced inside
`createRequest` is passed in explicitly. -/
def invokeCall (s : HostState) (k : InvokeKind) (reqId : String) :
    HostState × InvokeOutcome :=
  if s.terminated then (s, .thrown "worker terminated")
  else
    match s.ready with
    | none => (s, .awaitingReady)
    | some (.error e) => (s, .readyRejected e)
    | some (.ok ()) =>
      ({ s with corr := corrCreate s.corr reqId (invokeTimeoutMs k),
                postedToWorker := s.postedToWorker ++ [invokeMessage k reqId] },
       .posted reqId)

/-- Embedding of `terminate` (`main-host.ts` lines 255-268): a second
call returns at once; the first sets the one-way latch before anything
else, then rejects all pending requests with `"worker terminated"`.  The
subsequent `worker.terminate()` and the bounded wait for exit change
none of the modelled state. -/
def terminateCall (s : HostState) : HostState :=
  if s.terminated then s
  else { s with terminated := true,
                corr := corrRejectAll s.corr "worker terminated" }

/-- Everything that can act on one supervisor instance. -/
inductive HostEvent : Type where
  | workerMsg (m : WorkerToMainMessage) : HostEvent
  | workerError (err : String) : HostEvent
  | workerExit (code : Int) : HostEvent
  | registrationTimeout : HostEvent
  | rpcTimerFire (reqId : String) : HostEvent
  | callInvoke (k : InvokeKind) (reqId : String) : HostEvent
  | callTerminate : HostEvent

/-- One supervisor step. -/
def hostStep (s : HostState) : HostEvent → HostState
  | .workerMsg m => onWorkerMessage s m
  | .workerError err => onWorkerError s err
  | .workerExit code => onWorkerExit s code
  | .registrationTimeout => onRegistrationTimeout s
  | .rpcTimerFire reqId => { s with corr := corrTimerFire s.corr reqId }
  | .callInvoke k reqId => (invokeCall s k reqId).1
  | .callTerminate => terminateCall s

/-- A supervisor still awaiting registration (timer armed, ready promise
unsettled) with one pending invocation request. -/
def hostAwaitingReg : HostState :=
  { pluginId := "p1", terminated := false, regTimerActive := true,
    ready := none, corr := ⟨[("req-1", 60000)], []⟩, postedToWorker := [] }

/-- C2 counterexample: after a worker exit with non-zero code while the
registration timer is still pending, the timer is still armed — the exit
handler rejects the ready promise and rejects all pending requests, but
unlike the error handler it never clears the registration timer. -/
theorem workerExit_leaves_timer_armed :
    hostAwaitingReg.regTimerActive = true ∧
    (onWorkerExit hostAwaitingReg 1).regTimerActive = true ∧
    (onWorkerExit hostAwaitingReg 1).ready = some (.error "worker exited with code 1") ∧
    corrSize (onWorkerExit hostAwaitingReg 1).corr = 0 :=
  ⟨rfl, rfl, rfl, rfl⟩

/-- C2 (amended): on a unit-level error event the supervisor clears the
registration timer, rejects the ready promise if not yet settled, and
rejects every invocation pending at that moment via `rejectAll`; on a
worker exit with non-zero code it likewise rejects the ready promise if
unsettled and rejects every pending invocation — so no caller is left
waiting on the dead unit — but it does not clear the registration timer;
the still-armed timer's later firing is harmless, since the ready
promise is already settled. -/
theorem unit_failure_spec (s : HostState) (err : String) (code : Int)
    (hcode : code ≠ 0) :
    ((onWorkerError s err).regTimerActive = false ∧
     (onWorkerError s err).ready = settleErr s.ready err ∧
     corrSize (onWorkerError s err).corr = 0 ∧
     (∀ reqId t, assocGet s.corr.pending reqId = some t →
       assocGet s.corr.settled reqId = none →
       assocGet (onWorkerError s err).corr.settled reqId
         = some (.error ("worker crashed: " ++ err)))) ∧
    ((onWorkerExit s code).regTimerActive = s.regTimerActive ∧
     (onWorkerExit s code).ready
       = settleErr s.ready ("worker exited with code " ++ toString code) ∧
     corrSize (onWorkerExit s code).corr = 0 ∧
     (∀ reqId t, assocGet s.corr.pending reqId = some t →
       assocGet s.corr.settled reqId = none →
       assocGet (onWorkerExit s code).corr.settled reqId
         = some (.error ("worker exited with code " ++ toString code))) ∧
     (onRegistrationTimeout (onWorkerExit s code)).ready = (onWorkerExit s code).ready) := by
  have hexit : onWorkerExit s code
      = { s with ready := settleErr s.ready ("worker exited with code " ++ toString code),
                 corr := corrRejectAll s.corr ("worker exited with code " ++ toString code) } := by
    unfold onWorkerExit
    rw [if_pos hcode]
  refine ⟨⟨rfl, rfl, rfl, ?_⟩, ?_, ?_, ?_, ?_, ?_⟩
  · intro reqId t hp hs
    exact rejectAll_foldl_settles _ _ _ _ _ hp hs
  · rw [hexit]
  · rw [hexit]
  · rw [hexit]; rfl
  · intro reqId t hp hs
    rw [hexit]
    exact rejectAll_foldl_settles _ _ _ _ _ hp hs
  · rw [hexit]
    unfold onRegistrationTimeout
    split
    · cases s.ready <;> rfl
    · rfl

/-- Witness for the amended C2 at `hostAwaitingReg`: the error path
clears the timer and rejects the pending request, and the exit path
rejects it too while leaving the timer armed. -/
theorem unit_failure_spec_witness :
    (onWorkerError hostAwaitingReg "Error: boom").regTimerActive = false ∧
    assocGet (onWorkerError hostAwaitingReg "Error: boom").corr.settled "req-1"
      = some (.error "worker crashed: Error: boom") ∧
    (onWorkerExit hostAwaitingReg 1).regTimerActive = hostAwaitingReg.regTimerActive ∧
    assocGet (onWorkerExit hostAwaitingReg 1).corr.settled "req-1"
      = some (.error "worker exited with code 1") := by
  have h := unit_failure_spec hostAwaitingReg "Error: boom" 1 (by decide)
  exact ⟨h.1.1, h.1.2.2.2 "req-1" 60000 (by decide) (by decide), h.2.1,
    h.2.2.2.2.1 "req-1" 60000 (by decide) (by decide)⟩

/-- C4: the `terminated` flag is a one-way latch.  Once it is set, every
invocation method (`invokeTool`, `invokeHook`, `invokeServiceStart`,
`invokeServiceStop`, `invokeCommand`) rejects immediately with the
`"worker terminated"` error, creating no correlated request and posting
no message to the unit; a second `terminate()` call is a no-op; and no
supervisor event can ever unset the latch, while any `terminate()` call
sets it. -/
theorem terminated_latch (s : HostState) (hterm : s.terminated = true) :
    (∀ k reqId, invokeCall s k reqId = (s, .thrown "worker terminated")) ∧
    (∀ k reqId, (invokeCall s k reqId).1.corr = s.corr ∧
      (invokeCall s k reqId).1.postedToWorker = s.postedToWorker) ∧
    terminateCall s = s ∧
    (∀ ev, (hostStep s ev).terminated = true) ∧
    (∀ s' : HostState, (terminateCall s').terminated = true) := by
  have hinv : ∀ k reqId, invokeCall s k reqId = (s, .thrown "worker terminated") := by
    intro k reqId
    unfold invokeCall
    rw [if_pos hterm]
  refine ⟨hinv, ?_, ?_, ?_, ?_⟩
  · intro k reqId
    rw [hinv k reqId]
    exact ⟨rfl, rfl⟩
  · unfold terminateCall
    rw [if_pos hterm]
  · intro ev
    cases ev with
    | workerMsg m =>
      cases m <;> simp [hostStep, onWorkerMessage, hterm]
      split <;> simp [hterm]
    | workerError err => exact hterm
    | workerExit code =>
      simp only [hostStep, onWorkerExit]
      split <;> exact hterm
    | registrationTimeout =>
      simp only [hostStep, onRegistrationTimeout]
      split <;> exact hterm
    | rpcTimerFire reqId => exact hterm
    | callInvoke k reqId =>
      simp only [hostStep]
      rw [hinv k reqId]
      exact hterm
    | callTerminate =>
      simp only [hostStep, terminateCall]
      rw [if_pos hterm]
      exact hterm
  · intro s'
    unfold terminateCall
    split
    · next h => exact h
    · rfl

/-- A supervisor whose latch is already set. -/
def hostTerminated : HostState :=
  { pluginId := "p1", terminated := true, regTimerActive := false,
    ready := some (.ok ()), corr := ⟨[], []⟩, postedToWorker := [] }

/-- Witness for C4 at `hostTerminated`: a tool invocation rejects
client-side and a second `terminate()` changes nothing. -/
theorem terminated_latch_witness :
    invokeCall hostTerminated (.tool "echo" (.obj .nil)) "r1"
      = (hostTerminated, .thrown "worker terminated") ∧
    terminateCall hostTerminated = hostTerminated := by
  have h := terminated_latch hostTerminated rfl
  exact ⟨h.1 (.tool "echo" (.obj .nil)) "r1", h.2.2.1⟩

end WorkerBridge
